import Mathlib

/-!
Verification development for the AudioBroadcaster repository.

The server core (src/server/server.js) is a single-threaded Node event loop
over a process-wide `sessions` Map, per-session listener Sets, a per-session
append-mode recording stream, and WebSocket sockets.  It is embedded here as
an explicit state machine: JS Maps become insertion-ordered association
lists, sockets become records holding the ordered list of frames the server
has written to them plus an open flag, the recording stream becomes the byte
list appended to the file at the session's path, and each registered event
handler of server.js becomes a Lean function on the whole server state.  The
event-loop atomicity of one handler invocation is mirrored by each such
function being one step of the machine.
-/

namespace AudioBroadcaster

/-- Bytes of a binary WebSocket frame or of a recording file. -/
abbrev Bytes := List Nat

/-- Default of MAX_LISTENERS_PER_SESSION (server.js line 17). -/
def MAX_LISTENERS : Nat := 200

/-- Default of SESSION_TTL_MS (server.js line 15). -/
def SESSION_TTL_MS : Nat := 900000

/-- Map.get on an insertion-ordered association list (model of a JS Map). -/
def aget {α β : Type} [DecidableEq α] : List (α × β) → α → Option β
  | [], _ => none
  | (k, v) :: t, k2 => if k = k2 then some v else aget t k2

/-- Map.set: replaces the value under an existing key in place, else appends. -/
def aset {α β : Type} [DecidableEq α] : List (α × β) → α → β → List (α × β)
  | [], k, v => [(k, v)]
  | (k2, v2) :: t, k, v => if k2 = k then (k, v) :: t else (k2, v2) :: aset t k v

/-- Map.delete: removes the binding of a key. -/
def adel {α β : Type} [DecidableEq α] (m : List (α × β)) (k : α) : List (α × β) :=
  m.filter (fun p => !decide (p.1 = k))

/-- JSON text frames the server writes to sockets (section 6 of server.js:
ok, error, broadcast-started, init-segment, session-ended, meta,
listener-count), plus binary frames. -/
inductive Msg where
  | ok (sessionId : String)
  | errorMsg (message : String)
  | broadcastStarted
  | initSegmentAnn (size : Nat)
  | binaryData (data : Bytes)
  | sessionEnded (reason : String)
  | metaMsg (meta : String)
  | listenerCount (count : Nat)
deriving DecidableEq, Repr

/-- A WebSocket as observed from the server: the ordered list of frames the
server has written to it, and whether its readyState is OPEN.  For a
consumer that never reads, the whole outbox is pending outbound data. -/
structure Sock where
  outbox : List Msg
  readyOpen : Bool
deriving DecidableEq, Repr

/-- The per-session object built in the create handler (server.js lines
61-75).  The write stream is represented by the file path it appends to
(content lives in the files map of the server state) plus the flag that
end() was called; cleanupTimer is the pending-expiry flag. -/
structure Session where
  id : String
  token : String
  createdAt : Nat
  expireAt : Nat
  active : Bool
  broadcasterSocket : Option Nat
  listeners : List Nat
  filePath : String
  fileEnded : Bool
  cleanupTimer : Bool
  initSegment : Option Bytes
  initSegmentReceived : Bool
deriving DecidableEq, Repr

/-- Whole-server state: the sessions Map (server.js line 49), all sockets
keyed by an identifier, and the recordings directory as a map from file
path to file content. -/
structure SrvState where
  sessions : List (String × Session)
  socks : List (Nat × Sock)
  files : List (String × Bytes)
deriving DecidableEq, Repr

/-- A frame arriving on the broadcaster socket (server.js lines 158-166):
binary audio, or a text frame that parses as type meta, as type stop, or
anything else (other type or unparseable JSON). -/
inductive Frame where
  | binary (data : Bytes)
  | textMeta (meta : String)
  | textStop
  | textOther
deriving DecidableEq, Repr

/-- Result of the upgrade gate (server.js lines 112-126): the raw socket is
destroyed before the WebSocket handshake, or the upgrade completes. -/
inductive UpgradeOutcome where
  | destroyed
  | upgraded
deriving DecidableEq, Repr

/-- Recording file name, server.js line 57. -/
def mkFilePath (id : String) (now : Nat) : String :=
  "broadcast-" ++ id ++ "-" ++ toString now ++ ".webm"

/-- ws.send on a tracked socket: appends to its outbox. -/
def sendTo (socks : List (Nat × Sock)) (k : Nat) (m : Msg) : List (Nat × Sock) :=
  match aget socks k with
  | none => socks
  | some s => aset socks k { s with outbox := s.outbox ++ [m] }

/-- ws.close or terminate on a tracked socket: readyState leaves OPEN. -/
def closeSock (socks : List (Nat × Sock)) (k : Nat) : List (Nat × Sock) :=
  match aget socks k with
  | none => socks
  | some s => aset socks k { s with readyOpen := false }

/-- One iteration of a fan-out loop over listeners: send the frame if the
socket readyState is OPEN (server.js lines 189-197 and 260-264).  Writes to
a non-open WebSocket are discarded by ws, so this also models the
broadcast-started loop at lines 143-145. -/
def fanSend (m : Msg) (socks : List (Nat × Sock)) (k : Nat) : List (Nat × Sock) :=
  match aget socks k with
  | none => socks
  | some s => if s.readyOpen then sendTo socks k m else socks

/-- broadcastToListeners, server.js lines 259-265. -/
def broadcastToListeners (s : Session) (m : Msg) (socks : List (Nat × Sock)) :
    List (Nat × Sock) :=
  s.listeners.foldl (fanSend m) socks

/-- notifyListenerCount, server.js lines 248-257. -/
def notifyListenerCount (st : SrvState) (s : Session) : SrvState :=
  match s.broadcasterSocket with
  | none => st
  | some b =>
      match aget st.socks b with
      | none => st
      | some bs =>
          if bs.readyOpen
          then { st with socks := sendTo st.socks b (.listenerCount s.listeners.length) }
          else st

/-- The session object as initialised by the create handler (server.js
lines 61-82); the expiry timer is armed, the write stream freshly opened.
The id and token come from uuidv4() and are supplied by the environment
(random oracle). -/
def newSession (id token : String) (now : Nat) : Session :=
  { id := id, token := token, createdAt := now, expireAt := now + SESSION_TTL_MS,
    active := true, broadcasterSocket := none, listeners := [],
    filePath := mkFilePath id now, fileEnded := false, cleanupTimer := true,
    initSegment := none, initSegmentReceived := false }

/-- POST /api/session/create (server.js lines 51-92): builds the session,
arms the expiry timer, opens the recording stream in append mode (creating
the file, keeping existing bytes if the path already exists) and inserts
into the sessions Map with Map.set. -/
def createSession (id token : String) (now : Nat) (st : SrvState) : SrvState :=
  { st with
    sessions := aset st.sessions id (newSession id token now),
    files := aset st.files (mkFilePath id now) ((aget st.files (mkFilePath id now)).getD []) }

/-- The per-listener body of the teardown loop (server.js lines 280-287):
send session-ended, then close the socket. -/
def teardownListener (reason : String) (socks : List (Nat × Sock)) (k : Nat) :
    List (Nat × Sock) :=
  closeSock (sendTo socks k (.sessionEnded reason)) k

/-- teardownSession, server.js lines 267-297.  Looks the session up and
returns unchanged when absent; otherwise closes the broadcaster socket,
notifies and closes every listener, ends the write stream (no content
change; the flag dies with the session object) and deletes the session
from the Map.  The mutations of active, cleanupTimer, listeners and
initSegment happen on the object that is then dropped from the store. -/
def teardownSession (sid reason : String) (st : SrvState) : SrvState :=
  match aget st.sessions sid with
  | none => st
  | some s =>
      let socks1 :=
        match s.broadcasterSocket with
        | none => st.socks
        | some b => closeSock st.socks b
      let socks2 := s.listeners.foldl (teardownListener reason) socks1
      { st with sessions := adel st.sessions sid, socks := socks2 }

/-- Upgrade with role broadcaster followed by the broadcaster branch of the
connection handler (server.js lines 112-126 and 133-156).  The gate
destroys the raw socket when the session is absent or inactive; a second
broadcaster receives a JSON error and is closed; otherwise the socket takes
the broadcaster slot and every listener is notified broadcast-started. -/
def connectBroadcaster (sid : String) (k : Nat) (st : SrvState) :
    SrvState × UpgradeOutcome :=
  match aget st.sessions sid with
  | none => (st, .destroyed)
  | some s =>
      if s.active = false then (st, .destroyed)
      else if s.broadcasterSocket.isSome then
        ({ st with socks := (aset st.socks k
            { outbox := [Msg.errorMsg "broadcaster already connected"], readyOpen := false }) },
          .upgraded)
      else
        let s1 := { s with broadcasterSocket := some k }
        let socks1 := aset st.socks k { outbox := [], readyOpen := true }
        let socks2 := broadcastToListeners s1 .broadcastStarted socks1
        ({ st with sessions := aset st.sessions sid s1, socks := socks2 }, .upgraded)

/-- Upgrade with role listener followed by the listener branch of the
connection handler (server.js lines 112-126 and 203-233).  Gate order as in
the source: session present and active, then token equality, then capacity.
On admission: add to the listener Set, send ok, notify the broadcaster of
the listener count, send the cached init segment (announcement then binary),
then broadcast-started when a broadcaster is attached. -/
def connectListener (sid tok : String) (k : Nat) (st : SrvState) :
    SrvState × UpgradeOutcome :=
  match aget st.sessions sid with
  | none => (st, .destroyed)
  | some s =>
      if s.active = false then (st, .destroyed)
      else if tok = s.token then
        if MAX_LISTENERS ≤ s.listeners.length then (st, .destroyed)
        else
          let s1 := { s with listeners :=
            (if k ∈ s.listeners then s.listeners else s.listeners ++ [k]) }
          let st1 : SrvState :=
            { st with sessions := aset st.sessions sid s1,
                      socks := aset st.socks k { outbox := [], readyOpen := true } }
          let st2 := { st1 with socks := sendTo st1.socks k (.ok sid) }
          let st3 := notifyListenerCount st2 s1
          let st4 :=
            match s1.initSegment with
            | none => st3
            | some b =>
                { st3 with socks :=
                    (sendTo (sendTo st3.socks k (.initSegmentAnn b.length)) k (.binaryData b)) }
          let st5 :=
            if s1.broadcasterSocket.isSome
            then { st4 with socks := sendTo st4.socks k .broadcastStarted }
            else st4
          (st5, .upgraded)
      else (st, .destroyed)

/-- One inbound frame on the attached broadcaster socket (server.js lines
158-198).  Text frames: type meta is forwarded to open listeners, type stop
tears the session down, anything else is swallowed by the catch.  Binary
frames: cache the first as init segment, append to the recording stream
(a write after end throws and is caught, leaving the file unchanged), then
fan out to every open listener. -/
def broadcasterMessage (sid : String) (f : Frame) (st : SrvState) : SrvState :=
  match aget st.sessions sid with
  | none => st
  | some s =>
      if s.broadcasterSocket.isSome then
        match f with
        | .textMeta m => { st with socks := broadcastToListeners s (.metaMsg m) st.socks }
        | .textStop => teardownSession sid "stopped-by-broadcaster" st
        | .textOther => st
        | .binary data =>
            let s1 := if s.initSegmentReceived then s
                      else { s with initSegment := some data, initSegmentReceived := true }
            let files1 :=
              if s1.fileEnded then st.files
              else aset st.files s1.filePath (((aget st.files s1.filePath).getD []) ++ data)
            let socks1 := broadcastToListeners s1 (.binaryData data) st.socks
            { st with sessions := aset st.sessions sid s1, files := files1, socks := socks1 }
      else st

/-- Broadcaster socket close handler, server.js line 200. -/
def broadcasterClosed (sid : String) (st : SrvState) : SrvState :=
  teardownSession sid "broadcaster-disconnected" st

/-- Broadcaster socket error handler, server.js line 201: note the reason
string is error, not broadcaster-disconnected. -/
def broadcasterErrored (sid : String) (st : SrvState) : SrvState :=
  teardownSession sid "error" st

/-- Listener close and error handlers, server.js lines 235-242: remove from
the listener Set and notify the broadcaster of the new count. -/
def listenerClosed (sid : String) (k : Nat) (st : SrvState) : SrvState :=
  let socks1 := closeSock st.socks k
  match aget st.sessions sid with
  | none => { st with socks := socks1 }
  | some s =>
      let s1 := { s with listeners := s.listeners.filter (fun j => !decide (j = k)) }
      let st1 := { st with sessions := aset st.sessions sid s1, socks := socks1 }
      notifyListenerCount st1 s1

/-- POST /api/session/:id/stop (server.js lines 94-100): 404 when the
session is absent, else teardown with reason stopped-by-broadcaster. -/
def stopApi (sid : String) (st : SrvState) : SrvState :=
  match aget st.sessions sid with
  | none => st
  | some _ => teardownSession sid "stopped-by-broadcaster" st

/-- Expiry timer callback (server.js lines 77-82): if the session is still
in the Map, teardown with reason expired. -/
def expireSession (sid : String) (st : SrvState) : SrvState :=
  if (aget st.sessions sid).isSome then teardownSession sid "expired" st else st

/-- The events the server reacts to.  Ids, tokens and socket identifiers
are inputs from the environment. -/
inductive Event where
  | create (id token : String) (now : Nat)
  | upBroadcaster (sid : String) (k : Nat)
  | upListener (sid tok : String) (k : Nat)
  | bMessage (sid : String) (f : Frame)
  | bClose (sid : String)
  | bError (sid : String)
  | lClose (sid : String) (k : Nat)
  | stop (sid : String)
  | expire (sid : String)
deriving DecidableEq, Repr

/-- One event-loop step of the server. -/
def step : Event → SrvState → SrvState
  | .create id tok now, st => createSession id tok now st
  | .upBroadcaster sid k, st => (connectBroadcaster sid k st).1
  | .upListener sid tok k, st => (connectListener sid tok k st).1
  | .bMessage sid f, st => broadcasterMessage sid f st
  | .bClose sid, st => broadcasterClosed sid st
  | .bError sid, st => broadcasterErrored sid st
  | .lClose sid k, st => listenerClosed sid k st
  | .stop sid, st => stopApi sid st
  | .expire sid, st => expireSession sid st

/-- Run a list of events in order. -/
def run (es : List Event) (st : SrvState) : SrvState :=
  es.foldl (fun s e => step e s) st

/-- The session id an event addresses. -/
def eventSid : Event → String
  | .create id _ _ => id
  | .upBroadcaster sid _ => sid
  | .upListener sid _ _ => sid
  | .bMessage sid _ => sid
  | .bClose sid => sid
  | .bError sid => sid
  | .lClose sid _ => sid
  | .stop sid => sid
  | .expire sid => sid

/-- Sessions all respect the listener capacity bound. -/
def ListenersBounded (st : SrvState) : Prop :=
  ∀ p ∈ st.sessions, p.2.listeners.length ≤ MAX_LISTENERS

/-- Both init-segment fields agree between two session values. -/
def initPreserved (s s2 : Session) : Prop :=
  s2.initSegment = s.initSegment ∧ s2.initSegmentReceived = s.initSegmentReceived

/-- Splits a character list on the path separator, keeping empty segments. -/
def splitSegsAux : List Char → List Char → List (List Char)
  | [], acc => [acc.reverse]
  | c :: cs, acc =>
      if c = '/' then acc.reverse :: splitSegsAux cs []
      else splitSegsAux cs (c :: acc)

/-- Path components of a string, split on the separator. -/
def splitPath (s : String) : List String :=
  (splitSegsAux s.data []).map (fun l => String.mk l)

/-- One step of Node path normalisation: empty and dot segments vanish, a
dot-dot pops the previous real segment (accumulator kept reversed). -/
def normStep (acc : List String) (seg : String) : List String :=
  if seg = "" || seg = "." then acc
  else if seg = ".." then
    match acc with
    | [] => [".."]
    | a :: rest => if a = ".." then ".." :: a :: rest else rest
  else seg :: acc

/-- Node path normalisation of a segment list. -/
def normalize (segs : List String) : List String :=
  (segs.foldl normStep []).reverse

/-- Node path.basename: the last path component. -/
def pathBasename (s : String) : String :=
  (splitPath s).getLastD s

/-- The recordings directory as path segments (RECORDINGS_DIR, server.js
line 16). -/
def recordingsDirSegs : List String :=
  ["app", "recordings"]

/-- path.join(RECORDINGS_DIR, file), server.js line 104: concatenate then
normalise; dot-dot segments of the file parameter climb out of the
directory. -/
def resolveRecording (file : String) : List String :=
  normalize (recordingsDirSegs ++ splitPath file)

/-- Whether a resolved path is inside the recordings directory. -/
def insideRecordings (p : List String) : Bool :=
  p.take 2 = recordingsDirSegs

/-- Response of GET /api/recording/:file. -/
inductive RecordingResp where
  | notFound
  | download (fp : List String)
deriving DecidableEq, Repr

/-- GET /api/recording/:file handler (server.js lines 102-107): joins the
decoded route parameter onto RECORDINGS_DIR, 404 when fs.existsSync is
false, else streams the joined path.  No basename or containment check is
performed.  The filesystem is abstracted by the existsFn oracle. -/
def recordingHandler (existsFn : List String → Bool) (file : String) : RecordingResp :=
  let fp := resolveRecording file
  if existsFn fp then .download fp else .notFound

/-- A live session with broadcaster socket 0 attached, a cached init segment
and no listeners. -/
def sessionLive : Session :=
  { id := "s1", token := "t", createdAt := 0, expireAt := SESSION_TTL_MS,
    active := true, broadcasterSocket := some 0, listeners := [],
    filePath := "broadcast-s1-0.webm", fileEnded := false, cleanupTimer := true,
    initSegment := some [7, 8], initSegmentReceived := true }

/-- Server state holding sessionLive and its open broadcaster socket. -/
def stLive : SrvState :=
  { sessions := [("s1", sessionLive)],
    socks := [(0, { outbox := [], readyOpen := true })],
    files := [("broadcast-s1-0.webm", [7, 8])] }

/-- sessionLive before any binary frame arrived. -/
def sessionFresh : Session :=
  { sessionLive with initSegment := none, initSegmentReceived := false }

/-- Server state holding sessionFresh and its open broadcaster socket. -/
def stFresh : SrvState :=
  { sessions := [("s1", sessionFresh)],
    socks := [(0, { outbox := [], readyOpen := true })],
    files := [("broadcast-s1-0.webm", [])] }

/-- sessionLive with one attached listener, socket 1. -/
def sessionWithListener : Session :=
  { sessionLive with listeners := [1] }

/-- Server state holding sessionWithListener; sockets 0 and 1 are open. -/
def stWithListener : SrvState :=
  { sessions := [("s1", sessionWithListener)],
    socks := [(0, { outbox := [], readyOpen := true }),
              (1, { outbox := [], readyOpen := true })],
    files := [("broadcast-s1-0.webm", [7, 8])] }

/-- sessionLive with two attached listeners, sockets 1 and 2. -/
def sessionMixed : Session :=
  { sessionLive with listeners := [1, 2] }

/-- Server state holding sessionMixed; listener socket 1 is open, listener
socket 2 has already left the OPEN readyState. -/
def stMixed : SrvState :=
  { sessions := [("s1", sessionMixed)],
    socks := [(0, { outbox := [], readyOpen := true }),
              (1, { outbox := [], readyOpen := true }),
              (2, { outbox := [], readyOpen := false })],
    files := [("broadcast-s1-0.webm", [7, 8])] }

/-- sessionLive filled to capacity with MAX_LISTENERS listeners. -/
def sessionFull : Session :=
  { sessionLive with listeners := List.range MAX_LISTENERS }

/-- Server state holding sessionFull. -/
def stFull : SrvState :=
  { sessions := [("s1", sessionFull)],
    socks := [(0, { outbox := [], readyOpen := true })],
    files := [("broadcast-s1-0.webm", [7, 8])] }

/-- Trace for the slow-consumer scenario: create a session, attach the
broadcaster as socket 0 and a listener as socket 1 that never reads, then
stream 33 binary chunks. -/
def overflowTrace : List Event :=
  [Event.create "aabbccdd" "tok" 0, Event.upBroadcaster "aabbccdd" 0,
   Event.upListener "aabbccdd" "tok" 1]
  ++ List.replicate 33 (Event.bMessage "aabbccdd" (Frame.binary [5]))

/-- Trace of the round-trip law of C3: create, attach the broadcaster,
stream the chunks, stop. -/
def c3trace (id tok : String) (now : Nat) (b : Nat) (chunks : List Bytes) :
    List Event :=
  Event.create id tok now :: Event.upBroadcaster id b ::
    (chunks.map (fun c => Event.bMessage id (Frame.binary c)) ++ [Event.stop id])

/-! Lemmas about the Map model. -/

theorem aget_aset_self {α β : Type} [DecidableEq α] (m : List (α × β)) (k : α) (v : β) :
    aget (aset m k v) k = some v := by
  induction m with
  | nil => simp [aset, aget]
  | cons p t ih =>
      obtain ⟨k2, v2⟩ := p
      by_cases h : k2 = k
      · simp [aset, h, aget]
      · simp [aset, h, aget, ih]

theorem aget_aset_ne {α β : Type} [DecidableEq α] (m : List (α × β)) {k k2 : α} (v : β)
    (h : k2 ≠ k) : aget (aset m k v) k2 = aget m k2 := by
  induction m with
  | nil => simp [aset, aget, h.symm]
  | cons p t ih =>
      obtain ⟨k3, v3⟩ := p
      by_cases h3 : k3 = k
      · subst h3
        simp [aset, aget, h.symm]
      · simp only [aset, if_neg h3, aget]
        by_cases h4 : k3 = k2
        · simp [h4]
        · simp [h4, ih]

theorem aget_adel_self {α β : Type} [DecidableEq α] (m : List (α × β)) (k : α) :
    aget (adel m k) k = none := by
  induction m with
  | nil => rfl
  | cons p t ih =>
      obtain ⟨k2, v2⟩ := p
      by_cases h : k2 = k
      · simpa [adel, h] using ih
      · simpa [adel, aget, h] using ih

theorem aget_adel_ne {α β : Type} [DecidableEq α] (m : List (α × β)) {k k2 : α}
    (h : k2 ≠ k) : aget (adel m k) k2 = aget m k2 := by
  induction m with
  | nil => rfl
  | cons p t ih =>
      obtain ⟨k3, v3⟩ := p
      by_cases h3 : k3 = k
      · subst h3
        simpa [adel, aget, h.symm] using ih
      · by_cases h4 : k3 = k2
        · subst h4
          simp [adel, aget, h3]
        · simpa [adel, aget, h3, h4] using ih

theorem aget_mem {α β : Type} [DecidableEq α] (m : List (α × β)) (k : α) (v : β)
    (h : aget m k = some v) : (k, v) ∈ m := by
  induction m with
  | nil => cases h
  | cons p t ih =>
      obtain ⟨k2, v2⟩ := p
      by_cases h2 : k2 = k
      · subst h2
        have hv : v2 = v := by simpa [aget] using h
        subst hv
        exact List.mem_cons_self _ _
      · simp only [aget, if_neg h2] at h
        exact List.mem_cons_of_mem _ (ih h)

theorem mem_aset {α β : Type} [DecidableEq α] (m : List (α × β)) (k : α) (v : β)
    (q : α × β) (h : q ∈ aset m k v) : q = (k, v) ∨ q ∈ m := by
  induction m with
  | nil => simpa [aset] using h
  | cons p t ih =>
      obtain ⟨k2, v2⟩ := p
      by_cases h2 : k2 = k
      · simp only [aset, if_pos h2, List.mem_cons] at h
        rcases h with h | h
        · exact Or.inl h
        · exact Or.inr (List.mem_cons_of_mem _ h)
      · simp only [aset, if_neg h2, List.mem_cons] at h
        rcases h with h | h
        · exact Or.inr (h ▸ List.mem_cons_self _ _)
        · rcases ih h with h | h
          · exact Or.inl h
          · exact Or.inr (List.mem_cons_of_mem _ h)

theorem mem_adel {α β : Type} [DecidableEq α] (m : List (α × β)) (k : α)
    (q : α × β) (h : q ∈ adel m k) : q ∈ m :=
  List.mem_of_mem_filter h

theorem aset_keys_nodup {α β : Type} [DecidableEq α] (m : List (α × β)) (k : α) (v : β)
    (h : (m.map Prod.fst).Nodup) : ((aset m k v).map Prod.fst).Nodup := by
  induction m with
  | nil => simp [aset]
  | cons p t ih =>
      obtain ⟨k2, v2⟩ := p
      simp only [List.map_cons, List.nodup_cons] at h
      by_cases h2 : k2 = k
      · subst h2
        simpa [aset] using h
      · have hk2 : k2 ∉ ((aset t k v).map Prod.fst) := by
          intro hmem
          rcases List.mem_map.mp hmem with ⟨q, hq, hq2⟩
          rcases mem_aset t k v q hq with rfl | hq3
          · exact h2 hq2.symm
          · exact h.1 (List.mem_map.mpr ⟨q, hq3, hq2⟩)
        simpa [aset, h2, hk2] using ih h.2

theorem aset_length_mem {α β : Type} [DecidableEq α] (m : List (α × β)) (k : α)
    (v v0 : β) (h : aget m k = some v0) : (aset m k v).length = m.length := by
  induction m with
  | nil => cases h
  | cons p t ih =>
      obtain ⟨k2, v2⟩ := p
      by_cases h2 : k2 = k
      · simp [aset, h2]
      · simp only [aget, if_neg h2] at h
        simp [aset, h2, ih h]

theorem aset_length_new {α β : Type} [DecidableEq α] (m : List (α × β)) (k : α)
    (v : β) (h : aget m k = none) : (aset m k v).length = m.length + 1 := by
  induction m with
  | nil => rfl
  | cons p t ih =>
      obtain ⟨k2, v2⟩ := p
      by_cases h2 : k2 = k
      · simp only [aget, if_pos h2] at h
        exact Option.noConfusion h
      · simp only [aget, if_neg h2] at h
        simp [aset, h2, ih h]

/-! Lemmas about socket operations. -/

theorem sendTo_get_self {socks : List (Nat × Sock)} {k : Nat} {s : Sock} (m : Msg)
    (h : aget socks k = some s) :
    aget (sendTo socks k m) k = some { s with outbox := s.outbox ++ [m] } := by
  unfold sendTo
  rw [h]
  exact aget_aset_self socks k _

theorem sendTo_get_ne (socks : List (Nat × Sock)) {j k : Nat} (m : Msg) (h : j ≠ k) :
    aget (sendTo socks k m) j = aget socks j := by
  unfold sendTo
  cases aget socks k with
  | none => rfl
  | some s => exact aget_aset_ne socks _ h

theorem closeSock_get_self {socks : List (Nat × Sock)} {k : Nat} {s : Sock}
    (h : aget socks k = some s) :
    aget (closeSock socks k) k = some { s with readyOpen := false } := by
  unfold closeSock
  rw [h]
  exact aget_aset_self socks k _

theorem closeSock_get_ne (socks : List (Nat × Sock)) {j k : Nat} (h : j ≠ k) :
    aget (closeSock socks k) j = aget socks j := by
  unfold closeSock
  cases aget socks k with
  | none => rfl
  | some s => exact aget_aset_ne socks _ h

theorem fanSend_open {socks : List (Nat × Sock)} {k : Nat} {sk : Sock} (m : Msg)
    (hs : aget socks k = some sk) (ho : sk.readyOpen = true) :
    fanSend m socks k = sendTo socks k m := by
  unfold fanSend
  rw [hs]
  simp [ho]

theorem fanSend_closed (m : Msg) {socks : List (Nat × Sock)} {k : Nat} {sk : Sock}
    (hs : aget socks k = some sk) (ho : sk.readyOpen = false) :
    fanSend m socks k = socks := by
  unfold fanSend
  rw [hs]
  simp [ho]

theorem fanSend_get_ne (m : Msg) (socks : List (Nat × Sock)) {j k : Nat} (h : j ≠ k) :
    aget (fanSend m socks k) j = aget socks j := by
  unfold fanSend
  cases aget socks k with
  | none => rfl
  | some s =>
      by_cases ho : s.readyOpen
      · simp only [ho, if_true]
        exact sendTo_get_ne socks m h
      · simp only [ho]
        rfl

theorem teardownListener_get_ne (r : String) (socks : List (Nat × Sock)) {j k : Nat}
    (h : j ≠ k) : aget (teardownListener r socks k) j = aget socks j := by
  unfold teardownListener
  rw [closeSock_get_ne _ h, sendTo_get_ne _ _ h]

theorem teardownListener_get_self {socks : List (Nat × Sock)} {k : Nat} {s : Sock}
    (r : String) (h : aget socks k = some s) :
    aget (teardownListener r socks k) k
      = some ⟨s.outbox ++ [Msg.sessionEnded r], false⟩ := by
  unfold teardownListener
  rw [closeSock_get_self (sendTo_get_self _ h)]

/-! Lemmas about fan-out folds. -/

theorem foldl_fanSend_not_mem (m : Msg) (k : Nat) (l : List Nat) :
    k ∉ l → ∀ socks : List (Nat × Sock),
      aget (l.foldl (fanSend m) socks) k = aget socks k := by
  induction l with
  | nil => intro _ socks; rfl
  | cons i t ih =>
      intro hk socks
      rw [List.mem_cons, not_or] at hk
      rw [List.foldl_cons, ih hk.2, fanSend_get_ne m socks hk.1]

theorem foldl_fanSend_mem (m : Msg) (k : Nat) (l : List Nat) :
    l.Nodup → k ∈ l → ∀ (socks : List (Nat × Sock)) (sk : Sock),
      aget socks k = some sk → sk.readyOpen = true →
      aget (l.foldl (fanSend m) socks) k
        = some { sk with outbox := sk.outbox ++ [m] } := by
  induction l with
  | nil => intro _ hk; cases hk
  | cons i t ih =>
      intro hnd hk socks sk hs ho
      rcases List.nodup_cons.mp hnd with ⟨hit, hndt⟩
      rw [List.foldl_cons]
      rcases List.mem_cons.mp hk with hki | hkt
      · subst hki
        rw [foldl_fanSend_not_mem m k t hit, fanSend_open m hs ho]
        exact sendTo_get_self m hs
      · have hki : k ≠ i := fun h => hit (h ▸ hkt)
        exact ih hndt hkt _ sk ((fanSend_get_ne m socks hki).trans hs) ho

theorem foldl_fanSend_closed (m : Msg) (k : Nat) (l : List Nat) :
    ∀ (socks : List (Nat × Sock)) (sk : Sock),
      aget socks k = some sk → sk.readyOpen = false →
      aget (l.foldl (fanSend m) socks) k = some sk := by
  induction l with
  | nil => intro socks sk hs _; exact hs
  | cons i t ih =>
      intro socks sk hs ho
      rw [List.foldl_cons]
      by_cases hki : k = i
      · subst hki
        rw [fanSend_closed m hs ho]
        exact ih socks sk hs ho
      · exact ih _ sk ((fanSend_get_ne m socks hki).trans hs) ho

theorem foldl_teardownListener_not_mem (r : String) (k : Nat) (l : List Nat) :
    k ∉ l → ∀ socks : List (Nat × Sock),
      aget (l.foldl (teardownListener r) socks) k = aget socks k := by
  induction l with
  | nil => intro _ socks; rfl
  | cons i t ih =>
      intro hk socks
      rw [List.mem_cons, not_or] at hk
      rw [List.foldl_cons, ih hk.2, teardownListener_get_ne r socks hk.1]

theorem foldl_teardownListener_mem (r : String) (k : Nat) (l : List Nat) :
    l.Nodup → k ∈ l → ∀ (socks : List (Nat × Sock)) (sk : Sock),
      aget socks k = some sk →
      aget (l.foldl (teardownListener r) socks) k
        = some ⟨sk.outbox ++ [Msg.sessionEnded r], false⟩ := by
  induction l with
  | nil => intro _ hk; cases hk
  | cons i t ih =>
      intro hnd hk socks sk hs
      rcases List.nodup_cons.mp hnd with ⟨hit, hndt⟩
      rw [List.foldl_cons]
      rcases List.mem_cons.mp hk with hki | hkt
      · subst hki
        rw [foldl_teardownListener_not_mem r k t hit]
        exact teardownListener_get_self r hs
      · have hki : k ≠ i := fun h => hit (h ▸ hkt)
        exact ih hndt hkt _ sk ((teardownListener_get_ne r socks hki).trans hs)

/-! Per-operation component lemmas. -/

theorem notifyListenerCount_files (st : SrvState) (s : Session) :
    (notifyListenerCount st s).files = st.files := by
  cases hb : s.broadcasterSocket with
  | none => simp [notifyListenerCount, hb]
  | some b =>
      cases hk : aget st.socks b with
      | none => simp [notifyListenerCount, hb, hk]
      | some bs =>
          by_cases ho : bs.readyOpen <;> simp [notifyListenerCount, hb, hk, ho]

theorem notifyListenerCount_sessions (st : SrvState) (s : Session) :
    (notifyListenerCount st s).sessions = st.sessions := by
  cases hb : s.broadcasterSocket with
  | none => simp [notifyListenerCount, hb]
  | some b =>
      cases hk : aget st.socks b with
      | none => simp [notifyListenerCount, hb, hk]
      | some bs =>
          by_cases ho : bs.readyOpen <;> simp [notifyListenerCount, hb, hk, ho]

theorem notifyListenerCount_socks_get (st : SrvState) (s : Session) (k : Nat)
    (hb : ∀ w, s.broadcasterSocket = some w → w ≠ k) :
    aget (notifyListenerCount st s).socks k = aget st.socks k := by
  cases hw : s.broadcasterSocket with
  | none => simp [notifyListenerCount, hw]
  | some w =>
      cases hk : aget st.socks w with
      | none => simp [notifyListenerCount, hw, hk]
      | some bs =>
          by_cases ho : bs.readyOpen <;>
            simp [notifyListenerCount, hw, hk, ho, sendTo_get_ne st.socks _ (hb w hw).symm]

theorem teardownSession_files (sid r : String) (st : SrvState) :
    (teardownSession sid r st).files = st.files := by
  cases hs : aget st.sessions sid with
  | none => simp [teardownSession, hs]
  | some s => simp [teardownSession, hs]

theorem teardownSession_sessions_self (sid r : String) (st : SrvState) :
    aget (teardownSession sid r st).sessions sid = none := by
  cases hs : aget st.sessions sid with
  | none => simp [teardownSession, hs]
  | some s => simp [teardownSession, hs, aget_adel_self]

theorem teardownSession_sessions_ne (sid r : String) (st : SrvState) {sid2 : String}
    (h : sid2 ≠ sid) :
    aget (teardownSession sid r st).sessions sid2 = aget st.sessions sid2 := by
  cases hs : aget st.sessions sid with
  | none => simp [teardownSession, hs]
  | some s => simp [teardownSession, hs, aget_adel_ne _ h]

theorem connectBroadcaster_files (sid : String) (k : Nat) (st : SrvState) :
    ((connectBroadcaster sid k st).1).files = st.files := by
  cases hs : aget st.sessions sid with
  | none => simp [connectBroadcaster, hs]
  | some s =>
      by_cases ha : s.active = false
      · simp [connectBroadcaster, hs, ha]
      · by_cases hb : s.broadcasterSocket.isSome <;>
          simp [connectBroadcaster, hs, ha, hb]

theorem connectListener_files (sid tok : String) (k : Nat) (st : SrvState) :
    ((connectListener sid tok k st).1).files = st.files := by
  cases hs : aget st.sessions sid with
  | none => simp [connectListener, hs]
  | some s =>
      by_cases ha : s.active = false
      · simp [connectListener, hs, ha]
      · by_cases ht : tok = s.token
        · by_cases hc : MAX_LISTENERS ≤ s.listeners.length
          · simp [connectListener, hs, ha, ht, hc]
          · cases hinit : s.initSegment <;> cases hbs : s.broadcasterSocket <;>
              simp [connectListener, hs, ha, ht, hc, hinit, hbs, notifyListenerCount_files]
        · simp [connectListener, hs, ha, ht]

theorem listenerClosed_files (sid : String) (k : Nat) (st : SrvState) :
    (listenerClosed sid k st).files = st.files := by
  cases hs : aget st.sessions sid with
  | none => simp [listenerClosed, hs]
  | some s => simp [listenerClosed, hs, notifyListenerCount_files]

theorem stopApi_files (sid : String) (st : SrvState) :
    (stopApi sid st).files = st.files := by
  cases hs : aget st.sessions sid with
  | none => simp [stopApi, hs]
  | some s => simp [stopApi, hs, teardownSession_files]

theorem expireSession_files (sid : String) (st : SrvState) :
    (expireSession sid st).files = st.files := by
  by_cases hs : (aget st.sessions sid).isSome <;>
    simp [expireSession, hs, teardownSession_files]

theorem aget_inj {α β : Type} [DecidableEq α] {m : List (α × β)} {k : α} {v v2 : β}
    (h1 : aget m k = some v) (h2 : aget m k = some v2) : v = v2 := by
  rw [h1] at h2
  injection h2

/-! Characterisation of the sessions Map after each operation. -/

theorem connectListener_sessions_admitted {st : SrvState} {sid : String} {s : Session}
    (tok : String) (k : Nat) (hs : aget st.sessions sid = some s)
    (ha : ¬s.active = false) (ht : tok = s.token)
    (hc : ¬MAX_LISTENERS ≤ s.listeners.length) :
    ((connectListener sid tok k st).1).sessions
      = aset st.sessions sid ({ s with listeners :=
          (if k ∈ s.listeners then s.listeners else s.listeners ++ [k]) }) := by
  cases hinit : s.initSegment <;> cases hbs : s.broadcasterSocket <;>
    simp [connectListener, hs, ha, ht, hc, hinit, hbs, notifyListenerCount_sessions]

theorem connectBroadcaster_sessions_get (sid2 : String) (k : Nat) (st : SrvState)
    (sid : String) :
    aget ((connectBroadcaster sid2 k st).1).sessions sid = aget st.sessions sid
    ∨ ∃ s0, aget st.sessions sid = some s0
        ∧ aget ((connectBroadcaster sid2 k st).1).sessions sid
            = some { s0 with broadcasterSocket := some k } := by
  cases hs0 : aget st.sessions sid2 with
  | none => exact Or.inl (by simp [connectBroadcaster, hs0])
  | some s0 =>
      by_cases ha : s0.active = false
      · exact Or.inl (by simp [connectBroadcaster, hs0, ha])
      · by_cases hb : s0.broadcasterSocket.isSome
        · exact Or.inl (by simp [connectBroadcaster, hs0, ha, hb])
        · by_cases hsid : sid = sid2
          · subst hsid
            exact Or.inr ⟨s0, hs0,
              by simp [connectBroadcaster, hs0, ha, hb, aget_aset_self]⟩
          · exact Or.inl
              (by simp [connectBroadcaster, hs0, ha, hb, aget_aset_ne _ _ hsid])

theorem connectListener_sessions_get (sid2 tok : String) (k : Nat) (st : SrvState)
    (sid : String) :
    aget ((connectListener sid2 tok k st).1).sessions sid = aget st.sessions sid
    ∨ ∃ s0 l, aget st.sessions sid = some s0
        ∧ aget ((connectListener sid2 tok k st).1).sessions sid
            = some { s0 with listeners := l } := by
  cases hs0 : aget st.sessions sid2 with
  | none => exact Or.inl (by simp [connectListener, hs0])
  | some s0 =>
      by_cases ha : s0.active = false
      · exact Or.inl (by simp [connectListener, hs0, ha])
      · by_cases ht : tok = s0.token
        · by_cases hc : MAX_LISTENERS ≤ s0.listeners.length
          · exact Or.inl (by simp [connectListener, hs0, ha, ht, hc])
          · by_cases hsid : sid = sid2
            · subst hsid
              refine Or.inr ⟨s0,
                (if k ∈ s0.listeners then s0.listeners else s0.listeners ++ [k]), hs0, ?_⟩
              rw [connectListener_sessions_admitted tok k hs0 ha ht hc]
              exact aget_aset_self _ _ _
            · refine Or.inl ?_
              rw [connectListener_sessions_admitted tok k hs0 ha ht hc]
              exact aget_aset_ne _ _ hsid
        · exact Or.inl (by simp [connectListener, hs0, ha, ht])

theorem listenerClosed_sessions_get (sid2 : String) (k : Nat) (st : SrvState)
    (sid : String) :
    aget (listenerClosed sid2 k st).sessions sid = aget st.sessions sid
    ∨ ∃ s0 l, aget st.sessions sid = some s0
        ∧ aget (listenerClosed sid2 k st).sessions sid = some { s0 with listeners := l } := by
  cases hs0 : aget st.sessions sid2 with
  | none => exact Or.inl (by simp [listenerClosed, hs0])
  | some s0 =>
      by_cases hsid : sid = sid2
      · subst hsid
        exact Or.inr ⟨s0, s0.listeners.filter (fun j => !decide (j = k)), hs0,
          by simp [listenerClosed, hs0, notifyListenerCount_sessions, aget_aset_self]⟩
      · exact Or.inl
          (by simp [listenerClosed, hs0, notifyListenerCount_sessions,
                aget_aset_ne _ _ hsid])

theorem broadcasterMessage_binary_get {st : SrvState} {sid : String} {s : Session}
    (d : Bytes) (hs : aget st.sessions sid = some s)
    (hb : s.broadcasterSocket.isSome = true) :
    aget (broadcasterMessage sid (Frame.binary d) st).sessions sid
      = some (if s.initSegmentReceived then s
              else { s with initSegment := some d, initSegmentReceived := true }) := by
  by_cases hr : s.initSegmentReceived <;>
    simp [broadcasterMessage, hs, hb, hr, aget_aset_self]

theorem broadcasterMessage_get_other (sid2 : String) (f : Frame) (st : SrvState)
    {sid : String} (hne : sid ≠ sid2) :
    aget (broadcasterMessage sid2 f st).sessions sid = aget st.sessions sid := by
  cases hs0 : aget st.sessions sid2 with
  | none => simp [broadcasterMessage, hs0]
  | some s0 =>
      by_cases hb : s0.broadcasterSocket.isSome
      · cases f with
        | binary d => simp [broadcasterMessage, hs0, hb, aget_aset_ne _ _ hne]
        | textMeta m => simp [broadcasterMessage, hs0, hb]
        | textStop =>
            simp only [broadcasterMessage, hs0, hb, if_true]
            exact teardownSession_sessions_ne _ _ _ hne
        | textOther => simp [broadcasterMessage, hs0, hb]
      · cases f <;> simp [broadcasterMessage, hs0, hb]

theorem broadcasterMessage_sessions_meta (sid m : String) (st : SrvState) :
    (broadcasterMessage sid (Frame.textMeta m) st).sessions = st.sessions := by
  cases hs0 : aget st.sessions sid with
  | none => simp [broadcasterMessage, hs0]
  | some s0 =>
      by_cases hb : s0.broadcasterSocket.isSome <;> simp [broadcasterMessage, hs0, hb]

theorem broadcasterMessage_sessions_other (sid : String) (st : SrvState) :
    (broadcasterMessage sid Frame.textOther st).sessions = st.sessions := by
  cases hs0 : aget st.sessions sid with
  | none => simp [broadcasterMessage, hs0]
  | some s0 =>
      by_cases hb : s0.broadcasterSocket.isSome <;> simp [broadcasterMessage, hs0, hb]

theorem broadcasterMessage_stop_cases (sid : String) (st : SrvState) :
    broadcasterMessage sid Frame.textStop st = st
    ∨ broadcasterMessage sid Frame.textStop st
        = teardownSession sid "stopped-by-broadcaster" st := by
  cases hs0 : aget st.sessions sid with
  | none => exact Or.inl (by simp [broadcasterMessage, hs0])
  | some s0 =>
      by_cases hb : s0.broadcasterSocket.isSome
      · exact Or.inr (by simp [broadcasterMessage, hs0, hb])
      · exact Or.inl (by simp [broadcasterMessage, hs0, hb])

theorem broadcasterMessage_binary_noguard {st : SrvState} {sid : String} {s : Session}
    (d : Bytes) (hs : aget st.sessions sid = some s)
    (hb : ¬s.broadcasterSocket.isSome = true) :
    broadcasterMessage sid (Frame.binary d) st = st := by
  simp [broadcasterMessage, hs, hb]

theorem stopApi_eq_teardown (sid : String) (st : SrvState) :
    stopApi sid st = teardownSession sid "stopped-by-broadcaster" st := by
  cases hs0 : aget st.sessions sid <;> simp [stopApi, teardownSession, hs0]

theorem expireSession_eq_teardown (sid : String) (st : SrvState) :
    expireSession sid st = teardownSession sid "expired" st := by
  cases hs0 : aget st.sessions sid with
  | none => simp [expireSession, hs0, teardownSession]
  | some s0 => simp [expireSession, hs0]

/-- Every event other than a create under the same id and a binary frame to
this session leaves both init-segment fields of a surviving session
unchanged. -/
theorem step_initPreserved (e : Event) (st : SrvState) (sid : String) (s s2 : Session)
    (hnc : ∀ tok now, e ≠ Event.create sid tok now)
    (hnb : ∀ d, e ≠ Event.bMessage sid (Frame.binary d))
    (hs : aget st.sessions sid = some s)
    (hs2 : aget (step e st).sessions sid = some s2) :
    initPreserved s s2 := by
  cases e with
  | create id tok now =>
      have hne : sid ≠ id := by
        intro h
        exact hnc tok now (by rw [h])
      simp only [step, createSession] at hs2
      rw [aget_aset_ne _ _ hne, hs] at hs2
      injection hs2 with h
      subst h
      exact ⟨rfl, rfl⟩
  | upBroadcaster sid2 k =>
      simp only [step] at hs2
      rcases connectBroadcaster_sessions_get sid2 k st sid with h | ⟨s0, hs0, h⟩
      · rw [h, hs] at hs2
        injection hs2 with h2
        subst h2
        exact ⟨rfl, rfl⟩
      · cases aget_inj hs0 hs
        rw [h] at hs2
        injection hs2 with h2
        subst h2
        exact ⟨rfl, rfl⟩
  | upListener sid2 tok k =>
      simp only [step] at hs2
      rcases connectListener_sessions_get sid2 tok k st sid with h | ⟨s0, l, hs0, h⟩
      · rw [h, hs] at hs2
        injection hs2 with h2
        subst h2
        exact ⟨rfl, rfl⟩
      · cases aget_inj hs0 hs
        rw [h] at hs2
        injection hs2 with h2
        subst h2
        exact ⟨rfl, rfl⟩
  | bMessage sid2 f =>
      by_cases hsid : sid = sid2
      · subst hsid
        cases f with
        | binary d => exact absurd rfl (hnb d)
        | textMeta m =>
            simp only [step] at hs2
            rw [broadcasterMessage_sessions_meta, hs] at hs2
            injection hs2 with h2
            subst h2
            exact ⟨rfl, rfl⟩
        | textStop =>
            simp only [step] at hs2
            rcases broadcasterMessage_stop_cases sid st with h | h
            · rw [h, hs] at hs2
              injection hs2 with h2
              subst h2
              exact ⟨rfl, rfl⟩
            · rw [h, teardownSession_sessions_self] at hs2
              exact Option.noConfusion hs2
        | textOther =>
            simp only [step] at hs2
            rw [broadcasterMessage_sessions_other, hs] at hs2
            injection hs2 with h2
            subst h2
            exact ⟨rfl, rfl⟩
      · simp only [step] at hs2
        rw [broadcasterMessage_get_other sid2 f st hsid, hs] at hs2
        injection hs2 with h2
        subst h2
        exact ⟨rfl, rfl⟩
  | bClose sid2 =>
      simp only [step, broadcasterClosed] at hs2
      by_cases hsid : sid = sid2
      · subst hsid
        rw [teardownSession_sessions_self] at hs2
        exact Option.noConfusion hs2
      · rw [teardownSession_sessions_ne _ _ _ hsid, hs] at hs2
        injection hs2 with h2
        subst h2
        exact ⟨rfl, rfl⟩
  | bError sid2 =>
      simp only [step, broadcasterErrored] at hs2
      by_cases hsid : sid = sid2
      · subst hsid
        rw [teardownSession_sessions_self] at hs2
        exact Option.noConfusion hs2
      · rw [teardownSession_sessions_ne _ _ _ hsid, hs] at hs2
        injection hs2 with h2
        subst h2
        exact ⟨rfl, rfl⟩
  | lClose sid2 k =>
      simp only [step] at hs2
      rcases listenerClosed_sessions_get sid2 k st sid with h | ⟨s0, l, hs0, h⟩
      · rw [h, hs] at hs2
        injection hs2 with h2
        subst h2
        exact ⟨rfl, rfl⟩
      · cases aget_inj hs0 hs
        rw [h] at hs2
        injection hs2 with h2
        subst h2
        exact ⟨rfl, rfl⟩
  | stop sid2 =>
      simp only [step, stopApi_eq_teardown] at hs2
      by_cases hsid : sid = sid2
      · subst hsid
        rw [teardownSession_sessions_self] at hs2
        exact Option.noConfusion hs2
      · rw [teardownSession_sessions_ne _ _ _ hsid, hs] at hs2
        injection hs2 with h2
        subst h2
        exact ⟨rfl, rfl⟩
  | expire sid2 =>
      simp only [step, expireSession_eq_teardown] at hs2
      by_cases hsid : sid = sid2
      · subst hsid
        rw [teardownSession_sessions_self] at hs2
        exact Option.noConfusion hs2
      · rw [teardownSession_sessions_ne _ _ _ hsid, hs] at hs2
        injection hs2 with h2
        subst h2
        exact ⟨rfl, rfl⟩

/-! Capacity-bound preservation, one lemma per operation. -/

theorem teardownSession_bounded (sid r : String) (st : SrvState)
    (h : ListenersBounded st) : ListenersBounded (teardownSession sid r st) := by
  cases hs : aget st.sessions sid with
  | none => simpa [teardownSession, hs] using h
  | some s =>
      intro p hp
      simp only [teardownSession, hs] at hp
      exact h p (mem_adel _ _ _ hp)

theorem createSession_bounded (id tok : String) (now : Nat) (st : SrvState)
    (h : ListenersBounded st) : ListenersBounded (createSession id tok now st) := by
  intro p hp
  simp only [createSession] at hp
  rcases mem_aset _ _ _ _ hp with rfl | hp2
  · simp [newSession, MAX_LISTENERS]
  · exact h p hp2

theorem connectBroadcaster_sessions_cases (sid : String) (k : Nat) (st : SrvState) :
    ((connectBroadcaster sid k st).1).sessions = st.sessions
    ∨ ∃ s, aget st.sessions sid = some s
        ∧ ((connectBroadcaster sid k st).1).sessions
            = aset st.sessions sid { s with broadcasterSocket := some k } := by
  cases hs : aget st.sessions sid with
  | none => exact Or.inl (by simp [connectBroadcaster, hs])
  | some s =>
      by_cases ha : s.active = false
      · exact Or.inl (by simp [connectBroadcaster, hs, ha])
      · by_cases hb : s.broadcasterSocket.isSome
        · exact Or.inl (by simp [connectBroadcaster, hs, ha, hb])
        · exact Or.inr ⟨s, rfl, by simp [connectBroadcaster, hs, ha, hb]⟩

theorem connectBroadcaster_bounded (sid : String) (k : Nat) (st : SrvState)
    (h : ListenersBounded st) : ListenersBounded ((connectBroadcaster sid k st).1) := by
  rcases connectBroadcaster_sessions_cases sid k st with hc | ⟨s, hs, hc⟩
  · intro p hp
    rw [hc] at hp
    exact h p hp
  · intro p hp
    rw [hc] at hp
    rcases mem_aset _ _ _ _ hp with rfl | hp2
    · simpa using h (sid, s) (aget_mem _ _ _ hs)
    · exact h p hp2

theorem connectListener_sessions_cases (sid tok : String) (k : Nat) (st : SrvState) :
    ((connectListener sid tok k st).1).sessions = st.sessions
    ∨ ∃ s, aget st.sessions sid = some s ∧ ¬MAX_LISTENERS ≤ s.listeners.length
        ∧ ((connectListener sid tok k st).1).sessions
            = aset st.sessions sid ({ s with listeners :=
                (if k ∈ s.listeners then s.listeners else s.listeners ++ [k]) }) := by
  cases hs : aget st.sessions sid with
  | none => exact Or.inl (by simp [connectListener, hs])
  | some s =>
      by_cases ha : s.active = false
      · exact Or.inl (by simp [connectListener, hs, ha])
      · by_cases ht : tok = s.token
        · by_cases hc : MAX_LISTENERS ≤ s.listeners.length
          · exact Or.inl (by simp [connectListener, hs, ha, ht, hc])
          · exact Or.inr ⟨s, rfl, hc, connectListener_sessions_admitted tok k hs ha ht hc⟩
        · exact Or.inl (by simp [connectListener, hs, ha, ht])

theorem connectListener_bounded (sid tok : String) (k : Nat) (st : SrvState)
    (h : ListenersBounded st) : ListenersBounded ((connectListener sid tok k st).1) := by
  rcases connectListener_sessions_cases sid tok k st with hc | ⟨s, hs, hcap, hc⟩
  · intro p hp
    rw [hc] at hp
    exact h p hp
  · intro p hp
    rw [hc] at hp
    rcases mem_aset _ _ _ _ hp with rfl | hp2
    · by_cases hm : k ∈ s.listeners
      · simpa [hm] using h (sid, s) (aget_mem _ _ _ hs)
      · have hlt : s.listeners.length < MAX_LISTENERS := Nat.lt_of_not_le hcap
        simp only [hm, if_false]
        simp [List.length_append]
        omega
    · exact h p hp2

theorem listenerClosed_sessions_cases (sid : String) (k : Nat) (st : SrvState) :
    (listenerClosed sid k st).sessions = st.sessions
    ∨ ∃ s, aget st.sessions sid = some s
        ∧ (listenerClosed sid k st).sessions
            = aset st.sessions sid ({ s with listeners :=
                (s.listeners.filter (fun j => !decide (j = k))) }) := by
  cases hs : aget st.sessions sid with
  | none => exact Or.inl (by simp [listenerClosed, hs])
  | some s =>
      exact Or.inr ⟨s, rfl, by simp [listenerClosed, hs, notifyListenerCount_sessions]⟩

theorem listenerClosed_bounded (sid : String) (k : Nat) (st : SrvState)
    (h : ListenersBounded st) : ListenersBounded (listenerClosed sid k st) := by
  rcases listenerClosed_sessions_cases sid k st with hc | ⟨s, hs, hc⟩
  · intro p hp
    rw [hc] at hp
    exact h p hp
  · intro p hp
    rw [hc] at hp
    rcases mem_aset _ _ _ _ hp with rfl | hp2
    · exact le_trans (List.length_filter_le _ _)
        (by simpa using h (sid, s) (aget_mem _ _ _ hs))
    · exact h p hp2

theorem broadcasterMessage_bounded (sid : String) (f : Frame) (st : SrvState)
    (h : ListenersBounded st) : ListenersBounded (broadcasterMessage sid f st) := by
  cases hs : aget st.sessions sid with
  | none => simpa [broadcasterMessage, hs] using h
  | some s =>
      by_cases hb : s.broadcasterSocket.isSome
      · cases f with
        | binary d =>
            intro p hp
            simp only [broadcasterMessage, hs, hb, if_true] at hp
            rcases mem_aset _ _ _ _ hp with rfl | hp2
            · by_cases hr : s.initSegmentReceived
              · simpa [hr] using h (sid, s) (aget_mem _ _ _ hs)
              · simpa [hr] using h (sid, s) (aget_mem _ _ _ hs)
            · exact h p hp2
        | textMeta m =>
            intro p hp
            rw [broadcasterMessage_sessions_meta] at hp
            exact h p hp
        | textStop =>
            rcases broadcasterMessage_stop_cases sid st with hc | hc
            · rw [hc]
              exact h
            · rw [hc]
              exact teardownSession_bounded _ _ _ h
        | textOther =>
            intro p hp
            rw [broadcasterMessage_sessions_other] at hp
            exact h p hp
      · cases f <;> simpa [broadcasterMessage, hs, hb] using h

theorem step_bounded (e : Event) (st : SrvState) (h : ListenersBounded st) :
    ListenersBounded (step e st) := by
  cases e with
  | create id tok now => exact createSession_bounded id tok now st h
  | upBroadcaster sid k => exact connectBroadcaster_bounded sid k st h
  | upListener sid tok k => exact connectListener_bounded sid tok k st h
  | bMessage sid f => exact broadcasterMessage_bounded sid f st h
  | bClose sid => exact teardownSession_bounded sid _ st h
  | bError sid => exact teardownSession_bounded sid _ st h
  | lClose sid k => exact listenerClosed_bounded sid k st h
  | stop sid =>
      show ListenersBounded (stopApi sid st)
      rw [stopApi_eq_teardown]
      exact teardownSession_bounded _ _ _ h
  | expire sid =>
      show ListenersBounded (expireSession sid st)
      rw [expireSession_eq_teardown]
      exact teardownSession_bounded _ _ _ h

/-! Claim theorems. -/

/-- C1: the claim states that GET /api/recording/:file streams only files
inside the recordings directory and rejects any path-traversal parameter.
The code joins the raw parameter onto RECORDINGS_DIR with no basename
check: for the decoded parameter ../../etc/passwd (a traversal parameter,
its basename differs from it), the handler streams a path that resolves
outside the recordings directory whenever the target exists; only the
404-on-absence half of the claim holds. -/
theorem c1_recording_traversal :
    recordingHandler (fun _ => true) "../../etc/passwd"
        = RecordingResp.download ["etc", "passwd"]
    ∧ insideRecordings ["etc", "passwd"] = false
    ∧ pathBasename "../../etc/passwd" ≠ "../../etc/passwd"
    ∧ recordingHandler (fun _ => false) "../../etc/passwd" = RecordingResp.notFound :=
  ⟨rfl, rfl, by decide, rfl⟩

/-- C6: teardown is idempotent: a second invocation with any reason returns
the state of the first invocation unchanged, so no socket receives a second
session-ended frame, and the first invocation already removed the session
from the store. -/
theorem c6_teardown_idempotent (st : SrvState) (sid r1 r2 : String) :
    teardownSession sid r2 (teardownSession sid r1 st) = teardownSession sid r1 st
    ∧ aget (teardownSession sid r1 st).sessions sid = none := by
  refine ⟨?_, teardownSession_sessions_self sid r1 st⟩
  have h := teardownSession_sessions_self sid r1 st
  revert h
  generalize teardownSession sid r1 st = st1
  intro h
  simp [teardownSession, h]

/-- C9 counterexample: the create handler inserts the uuid-derived id with
Map.set and no collision check, so when the environment hands it an id
equal to a live session id, the old live session is silently replaced:
after two creates under the id deadbeef only one session remains and it is
the second one. -/
theorem c9_create_collision :
    (createSession "deadbeef" "t2" 5
        (createSession "deadbeef" "t1" 0 ⟨[], [], []⟩)).sessions.length = 1
    ∧ aget (createSession "deadbeef" "t1" 0 ⟨[], [], []⟩).sessions "deadbeef"
        = some (newSession "deadbeef" "t1" 0)
    ∧ aget (createSession "deadbeef" "t2" 5
        (createSession "deadbeef" "t1" 0 ⟨[], [], []⟩)).sessions "deadbeef"
        = some (newSession "deadbeef" "t2" 5)
    ∧ newSession "deadbeef" "t1" 0 ≠ newSession "deadbeef" "t2" 5 :=
  ⟨rfl, rfl, rfl, by decide⟩

/-- C9 amended: create inserts the generated id with Map.set semantics: live
ids stay pairwise distinct, and a fresh id adds a new entry, but a generated
id colliding with a live session replaces that session in place instead of
never colliding. -/
theorem c9_create_set_semantics (st : SrvState) (id tok : String) (now : Nat) :
    ((st.sessions.map Prod.fst).Nodup →
        (((createSession id tok now st).sessions.map Prod.fst).Nodup))
    ∧ (aget st.sessions id = none →
        (createSession id tok now st).sessions.length = st.sessions.length + 1
        ∧ aget (createSession id tok now st).sessions id = some (newSession id tok now))
    ∧ (∀ s0, aget st.sessions id = some s0 →
        (createSession id tok now st).sessions.length = st.sessions.length
        ∧ aget (createSession id tok now st).sessions id
            = some (newSession id tok now)) := by
  simp only [createSession]
  exact ⟨fun h => aset_keys_nodup _ _ _ h,
    fun h => ⟨aset_length_new _ _ _ h, aget_aset_self _ _ _⟩,
    fun s0 h => ⟨aset_length_mem _ _ _ _ h, aget_aset_self _ _ _⟩⟩

/-- Witness for C9 amended: creating under a fresh id in the empty store
adds exactly one session, retrievable under that id. -/
theorem c9_create_set_semantics_witness :
    (createSession "deadbeef" "t1" 0 ⟨[], [], []⟩).sessions.length = 1
    ∧ aget (createSession "deadbeef" "t1" 0 ⟨[], [], []⟩).sessions "deadbeef"
        = some (newSession "deadbeef" "t1" 0) :=
  (c9_create_set_semantics ⟨[], [], []⟩ "deadbeef" "t1" 0).2.1 rfl

/-- C4 counterexample: a listener joining a live session with a cached init
segment receives, in this order: ok, the init-segment announcement, the
binary init segment, and only then broadcast-started; the order claimed by
the spec (ok, broadcast-started, init-segment, binary) differs. -/
theorem c4_bootstrap_order_cex :
    aget ((connectListener "s1" "t" 1 stLive).1).socks 1
      = some ⟨[Msg.ok "s1", Msg.initSegmentAnn 2, Msg.binaryData [7, 8],
          Msg.broadcastStarted], true⟩
    ∧ ([Msg.ok "s1", Msg.initSegmentAnn 2, Msg.binaryData [7, 8], Msg.broadcastStarted]
        ≠ [Msg.ok "s1", Msg.broadcastStarted, Msg.initSegmentAnn 2,
            Msg.binaryData [7, 8]]) :=
  ⟨rfl, by decide⟩

/-- C8 counterexample: when the broadcaster socket errors, the error handler
passes the reason error to teardown, so the attached listener receives
session-ended with reason error, not broadcaster-disconnected. -/
theorem c8_error_reason_cex :
    aget (step (Event.bError "s1") stWithListener).socks 1
      = some ⟨[Msg.sessionEnded "error"], false⟩
    ∧ Msg.sessionEnded "error" ≠ Msg.sessionEnded "broadcaster-disconnected" :=
  ⟨rfl, by decide⟩

/-- C2 counterexample: the fan-out keeps no bounded per-listener queue.
After 33 chunks to a listener that never reads, all 33 chunks are queued on
its socket in order (none dropped), the socket is still open and the
listener is still attached, although 33 exceeds the claimed depth bound of
32 and no slow-consumer disconnect happened. -/
theorem c2_unbounded_queue_cex :
    aget (run overflowTrace ⟨[], [], []⟩).socks 1
      = some ⟨Msg.ok "aabbccdd" :: Msg.broadcastStarted ::
          List.replicate 33 (Msg.binaryData [5]), true⟩
    ∧ ((aget (run overflowTrace ⟨[], [], []⟩).sessions "aabbccdd").map
        Session.listeners) = some [1]
    ∧ 32 < 33 :=
  ⟨rfl, rfl, by decide⟩

/-- C5: initSegment is assigned exactly once, by the first binary frame from
the attached broadcaster; the initSegmentReceived flag is sticky and, once
set, initSegment is never changed by any event that leaves the session in
the store (teardown removes it); events other than that binary frame change
neither field.  A create event under the same id is excluded: it rebinds
the id to a brand-new session object without mutating the old one. -/
theorem c5_init_segment_once (e : Event) (st : SrvState) (sid : String) (c : Bytes)
    (s s2 : Session)
    (hs : aget st.sessions sid = some s)
    (hs2 : aget (step e st).sessions sid = some s2)
    (hnc : ∀ tok now, e ≠ Event.create sid tok now) :
    (s.initSegmentReceived = true →
        s2.initSegmentReceived = true ∧ s2.initSegment = s.initSegment)
    ∧ ((∀ d, e ≠ Event.bMessage sid (Frame.binary d)) → initPreserved s s2)
    ∧ (e = Event.bMessage sid (Frame.binary c) → s.initSegmentReceived = false →
        s.broadcasterSocket.isSome = true →
        s2.initSegment = some c ∧ s2.initSegmentReceived = true) := by
  refine ⟨?_, ?_, ?_⟩
  · intro hr
    by_cases hbin : ∃ d, e = Event.bMessage sid (Frame.binary d)
    · rcases hbin with ⟨d, rfl⟩
      simp only [step] at hs2
      by_cases hb : s.broadcasterSocket.isSome = true
      · have h := broadcasterMessage_binary_get d hs hb
        rw [if_pos hr] at h
        cases aget_inj hs2 h
        exact ⟨hr, rfl⟩
      · rw [broadcasterMessage_binary_noguard d hs hb, hs] at hs2
        injection hs2 with h2
        subst h2
        exact ⟨hr, rfl⟩
    · push_neg at hbin
      have hA := step_initPreserved e st sid s s2 hnc hbin hs hs2
      exact ⟨hA.2.trans hr, hA.1⟩
  · intro hnb
    exact step_initPreserved e st sid s s2 hnc hnb hs hs2
  · rintro rfl hr hb
    simp only [step] at hs2
    have hcond : ¬s.initSegmentReceived = true := by
      rw [hr]
      exact Bool.false_ne_true
    have h := broadcasterMessage_binary_get c hs hb
    rw [if_neg hcond] at h
    cases aget_inj hs2 h
    exact ⟨rfl, rfl⟩

/-- Witness for C5: in stFresh no init segment is cached; the first binary
frame [9] from the broadcaster sets it and the sticky flag. -/
theorem c5_init_segment_once_witness :
    ({ sessionFresh with initSegment := some [9], initSegmentReceived := true } : Session).initSegment = some [9]
    ∧ ({ sessionFresh with initSegment := some [9], initSegmentReceived := true } : Session).initSegmentReceived = true :=
  (c5_init_segment_once (Event.bMessage "s1" (Frame.binary [9])) stFresh "s1" [9]
    sessionFresh
    ({ sessionFresh with initSegment := some [9], initSegmentReceived := true })
    rfl rfl (by intro tok now h; exact Event.noConfusion h)).2.2 rfl rfl rfl

theorem run_append (xs ys : List Event) (st : SrvState) :
    run (xs ++ ys) st = run ys (run xs st) := by
  simp [run, List.foldl_append]

theorem broadcasterMessage_binary_files {st : SrvState} {sid : String} {s : Session}
    (c : Bytes) (hs : aget st.sessions sid = some s)
    (hb : s.broadcasterSocket.isSome = true) (hf : s.fileEnded = false) :
    (broadcasterMessage sid (Frame.binary c) st).files
      = aset st.files s.filePath (((aget st.files s.filePath).getD []) ++ c) := by
  by_cases hr : s.initSegmentReceived <;>
    simp [broadcasterMessage, hs, hb, hr, hf]

theorem broadcasterMessage_binary_session_file {st : SrvState} {sid : String}
    {s : Session} (c : Bytes) (hs : aget st.sessions sid = some s)
    (hb : s.broadcasterSocket.isSome = true) :
    ∃ s2, aget (broadcasterMessage sid (Frame.binary c) st).sessions sid = some s2
      ∧ s2.filePath = s.filePath ∧ s2.fileEnded = s.fileEnded
      ∧ s2.broadcasterSocket = s.broadcasterSocket := by
  refine ⟨_, broadcasterMessage_binary_get c hs hb, ?_, ?_, ?_⟩ <;>
    by_cases hr : s.initSegmentReceived <;> simp [hr]

/-- Streaming a list of binary chunks from the attached broadcaster appends
their concatenation to the session's recording file. -/
theorem run_binaries_file (id : String) (chunks : List Bytes) :
    ∀ (st : SrvState) (s : Session) (d : Bytes),
      aget st.sessions id = some s → s.broadcasterSocket.isSome = true →
      s.fileEnded = false → aget st.files s.filePath = some d →
      ∃ s2, aget (run (chunks.map (fun c => Event.bMessage id (Frame.binary c)))
            st).sessions id = some s2
        ∧ s2.filePath = s.filePath
        ∧ aget (run (chunks.map (fun c => Event.bMessage id (Frame.binary c)))
            st).files s.filePath = some (d ++ chunks.flatten) := by
  induction chunks with
  | nil =>
      intro st s d hs hb hf hfile
      exact ⟨s, hs, rfl, by simpa [run] using hfile⟩
  | cons c cs ih =>
      intro st s d hs hb hf hfile
      rcases broadcasterMessage_binary_session_file c hs hb
        with ⟨s1, hget1, hfp1, hfe1, hbb1⟩
      have hfile1 : aget (broadcasterMessage id (Frame.binary c) st).files s1.filePath
          = some (d ++ c) := by
        rw [broadcasterMessage_binary_files c hs hb hf, hfp1]
        simp [aget_aset_self, hfile]
      have ih2 := ih (broadcasterMessage id (Frame.binary c) st) s1 (d ++ c) hget1
        (by rw [hbb1]; exact hb) (hfe1.trans hf) hfile1
      rcases ih2 with ⟨s2, hget2, hfp2, hfile2⟩
      refine ⟨s2, hget2, hfp2.trans hfp1, ?_⟩
      rw [← hfp1]
      exact hfile2.trans (by simp)

/-- C7: every event preserves the invariant that every session holds at most
MAX_LISTENERS listeners, and a listener upgrade aimed at a session that is
already at (or beyond) capacity is turned away at the gate: the raw socket
is destroyed and the whole server state, in particular the listener set, is
unchanged. -/
theorem c7_listener_capacity :
    (∀ (st : SrvState) (e : Event), ListenersBounded st → ListenersBounded (step e st))
    ∧ (∀ (st : SrvState) (sid tok : String) (k : Nat) (s : Session),
        aget st.sessions sid = some s → MAX_LISTENERS ≤ s.listeners.length →
        connectListener sid tok k st = (st, UpgradeOutcome.destroyed)) := by
  constructor
  · intro st e h
    exact step_bounded e st h
  · intro st sid tok k s hs hcap
    by_cases ha : s.active = false
    · simp [connectListener, hs, ha]
    · by_cases ht : tok = s.token
      · simp [connectListener, hs, ha, ht, hcap]
      · simp [connectListener, hs, ha, ht]

set_option maxRecDepth 8000 in
/-- Witness for C7: the bound is preserved by an upgrade attempt against the
full session, and that attempt is rejected with the state unchanged. -/
theorem c7_listener_capacity_witness :
    ListenersBounded (step (Event.upListener "s1" "t" 500) stFull)
    ∧ connectListener "s1" "t" 500 stFull = (stFull, UpgradeOutcome.destroyed) :=
  ⟨c7_listener_capacity.1 stFull (Event.upListener "s1" "t" 500)
      (by unfold ListenersBounded; decide),
    c7_listener_capacity.2 stFull "s1" "t" 500 sessionFull rfl (by decide)⟩

/-- C10: a text frame from the attached broadcaster parsing as type stop
tears the session down with reason stopped-by-broadcaster; one parsing as
type meta forwards {type:"meta", meta} to every listener whose socket is
open while leaving sessions and recordings untouched and non-open listener
sockets unwritten; any other or unparseable text frame leaves the whole
state unchanged, and no text frame is ever appended to the recording or
forwarded as binary audio. -/
theorem c10_text_frames (st : SrvState) (sid : String) (s : Session) (m : String)
    (k j : Nat) (sk sj : Sock)
    (hs : aget st.sessions sid = some s)
    (hb : s.broadcasterSocket.isSome = true)
    (hk : k ∈ s.listeners) (hnd : s.listeners.Nodup)
    (hsk : aget st.socks k = some sk) (hko : sk.readyOpen = true)
    (hsj : aget st.socks j = some sj) (hjo : sj.readyOpen = false) :
    step (Event.bMessage sid Frame.textStop) st
        = teardownSession sid "stopped-by-broadcaster" st
    ∧ (step (Event.bMessage sid (Frame.textMeta m)) st).sessions = st.sessions
    ∧ (step (Event.bMessage sid (Frame.textMeta m)) st).files = st.files
    ∧ aget (step (Event.bMessage sid (Frame.textMeta m)) st).socks k
        = some { sk with outbox := sk.outbox ++ [Msg.metaMsg m] }
    ∧ aget (step (Event.bMessage sid (Frame.textMeta m)) st).socks j = some sj
    ∧ step (Event.bMessage sid Frame.textOther) st = st := by
  refine ⟨?_, ?_, ?_, ?_, ?_, ?_⟩
  · simp [step, broadcasterMessage, hs, hb]
  · simp [step, broadcasterMessage, hs, hb]
  · simp [step, broadcasterMessage, hs, hb]
  · simp only [step, broadcasterMessage, hs, hb, if_true, broadcastToListeners]
    exact foldl_fanSend_mem (Msg.metaMsg m) k s.listeners hnd hk st.socks sk hsk hko
  · simp only [step, broadcasterMessage, hs, hb, if_true, broadcastToListeners]
    exact foldl_fanSend_closed (Msg.metaMsg m) j s.listeners st.socks sj hsj hjo
  · simp [step, broadcasterMessage, hs, hb]

theorem sendTo_chain3 {socks : List (Nat × Sock)} {k : Nat} {sk : Sock}
    (h : aget socks k = some sk) (m1 m2 m3 : Msg) :
    aget (sendTo (sendTo (sendTo socks k m1) k m2) k m3) k
      = some ⟨sk.outbox ++ [m1, m2, m3], sk.readyOpen⟩ := by
  have h1 := sendTo_get_self m1 h
  have h2 := sendTo_get_self m2 h1
  have h3 := sendTo_get_self m3 h2
  rw [h3]
  simp

theorem broadcasterMessage_binary_socks_mem {st : SrvState} {sid : String}
    {s : Session} {k : Nat} {sk : Sock} (c : Bytes)
    (hs : aget st.sessions sid = some s)
    (hb : s.broadcasterSocket.isSome = true)
    (hk : k ∈ s.listeners) (hnd : s.listeners.Nodup)
    (hsk : aget st.socks k = some sk) (ho : sk.readyOpen = true) :
    aget (broadcasterMessage sid (Frame.binary c) st).socks k
      = some ⟨sk.outbox ++ [Msg.binaryData c], true⟩ := by
  obtain ⟨ob, ro⟩ := sk
  simp only at ho
  subst ho
  by_cases hr : s.initSegmentReceived
  · simp only [broadcasterMessage, hs, hb, hr, if_true, broadcastToListeners]
    exact foldl_fanSend_mem (Msg.binaryData c) k s.listeners hnd hk st.socks
      ⟨ob, true⟩ hsk rfl
  · simp only [broadcasterMessage, hs, hb, hr, if_false, broadcastToListeners]
    exact foldl_fanSend_mem (Msg.binaryData c) k s.listeners hnd hk st.socks
      ⟨ob, true⟩ hsk rfl

theorem broadcasterMessage_binary_session_shape {st : SrvState} {sid : String}
    {s : Session} (c : Bytes) (hs : aget st.sessions sid = some s)
    (hb : s.broadcasterSocket.isSome = true) :
    ∃ s2, aget (broadcasterMessage sid (Frame.binary c) st).sessions sid = some s2
      ∧ s2.listeners = s.listeners ∧ s2.broadcasterSocket = s.broadcasterSocket := by
  refine ⟨_, broadcasterMessage_binary_get c hs hb, ?_, ?_⟩ <;>
    by_cases hr : s.initSegmentReceived <;> simp [hr]

/-- C8 amended: a broadcaster close invokes teardown with reason
broadcaster-disconnected while a broadcaster error invokes it with reason
error; on either path every attached listener receives session-ended
carrying that reason as the final frame on its socket, which is then
closed, and the session is removed. -/
theorem c8_broadcaster_disconnect (st : SrvState) (sid : String) (s : Session)
    (k : Nat) (sk : Sock)
    (hs : aget st.sessions sid = some s)
    (hk : k ∈ s.listeners) (hnd : s.listeners.Nodup)
    (hnb : ∀ b, s.broadcasterSocket = some b → b ≠ k)
    (hsk : aget st.socks k = some sk) :
    aget (step (Event.bClose sid) st).socks k
      = some ⟨sk.outbox ++ [Msg.sessionEnded "broadcaster-disconnected"], false⟩
    ∧ aget (step (Event.bError sid) st).socks k
      = some ⟨sk.outbox ++ [Msg.sessionEnded "error"], false⟩
    ∧ aget (step (Event.bClose sid) st).sessions sid = none
    ∧ aget (step (Event.bError sid) st).sessions sid = none := by
  have key : ∀ r : String, aget (teardownSession sid r st).socks k
      = some ⟨sk.outbox ++ [Msg.sessionEnded r], false⟩ := by
    intro r
    simp only [teardownSession, hs]
    have hbase : aget (match s.broadcasterSocket with
        | none => st.socks
        | some b => closeSock st.socks b) k = some sk := by
      cases hbs : s.broadcasterSocket with
      | none => exact hsk
      | some b => exact (closeSock_get_ne st.socks (hnb b hbs).symm).trans hsk
    exact foldl_teardownListener_mem r k s.listeners hnd hk _ sk hbase
  exact ⟨key "broadcaster-disconnected", key "error",
    teardownSession_sessions_self _ _ _, teardownSession_sessions_self _ _ _⟩

/-- Witness for C8 amended: in stWithListener a broadcaster close delivers
session-ended with reason broadcaster-disconnected to listener 1 and a
broadcaster error delivers reason error. -/
theorem c8_broadcaster_disconnect_witness :
    aget (step (Event.bClose "s1") stWithListener).socks 1
      = some ⟨[Msg.sessionEnded "broadcaster-disconnected"], false⟩
    ∧ aget (step (Event.bError "s1") stWithListener).socks 1
      = some ⟨[Msg.sessionEnded "error"], false⟩ := by
  have h := c8_broadcaster_disconnect stWithListener "s1" sessionWithListener 1
    ⟨[], true⟩ rfl (by decide) (by decide)
    (by intro b hb; simp [sessionWithListener, sessionLive] at hb; omega) rfl
  exact ⟨h.1, h.2.1⟩

/-- C4 amended: a listener admitted to an active session with a cached init
segment and an attached broadcaster has exactly these frames queued, in
order: ok, the init-segment announcement, the binary init segment,
broadcast-started; any subsequent live binary chunk is queued after them. -/
theorem c4_bootstrap_order (st : SrvState) (sid tok : String) (k w : Nat)
    (s : Session) (b : Bytes)
    (hs : aget st.sessions sid = some s) (ha : ¬s.active = false)
    (ht : tok = s.token) (hc : ¬MAX_LISTENERS ≤ s.listeners.length)
    (hinit : s.initSegment = some b) (hbw : s.broadcasterSocket = some w)
    (hkw : k ≠ w) (hknl : k ∉ s.listeners) (hnd : s.listeners.Nodup) :
    aget ((connectListener sid tok k st).1).socks k
      = some ⟨[Msg.ok sid, Msg.initSegmentAnn b.length, Msg.binaryData b,
          Msg.broadcastStarted], true⟩
    ∧ ∀ c, aget (step (Event.bMessage sid (Frame.binary c))
          ((connectListener sid tok k st).1)).socks k
        = some ⟨[Msg.ok sid, Msg.initSegmentAnn b.length, Msg.binaryData b,
            Msg.broadcastStarted, Msg.binaryData c], true⟩ := by
  have hb1 : ∀ w2 : Nat, (some w : Option Nat) = some w2 → w2 ≠ k := by
    intro w2 hw2
    injection hw2 with h2
    subst h2
    exact fun he => hkw he.symm
  have hmain : aget ((connectListener sid tok k st).1).socks k
      = some ⟨[Msg.ok sid, Msg.initSegmentAnn b.length, Msg.binaryData b,
          Msg.broadcastStarted], true⟩ := by
    simp only [connectListener, hs, ha, ht, hc, hknl, hinit, hbw, if_neg, if_false,
      ite_false, ite_true, Option.isSome_some, if_true]
    have hcore : ∀ Y : List (Nat × Sock), aget Y k = some ⟨[Msg.ok sid], true⟩ →
        aget (sendTo (sendTo (sendTo Y k (Msg.initSegmentAnn b.length)) k
            (Msg.binaryData b)) k Msg.broadcastStarted) k
          = some ⟨[Msg.ok sid, Msg.initSegmentAnn b.length, Msg.binaryData b,
              Msg.broadcastStarted], true⟩ := by
      intro Y hY
      simpa using sendTo_chain3 hY (Msg.initSegmentAnn b.length) (Msg.binaryData b)
        Msg.broadcastStarted
    apply hcore
    exact (notifyListenerCount_socks_get _ _ _ hb1).trans
      (sendTo_get_self (Msg.ok sid) (aget_aset_self _ _ _))
  refine ⟨hmain, ?_⟩
  intro c
  have hs2 : aget ((connectListener sid tok k st).1).sessions sid
      = some ({ s with listeners := s.listeners ++ [k] }) := by
    rw [connectListener_sessions_admitted tok k hs ha ht hc]
    rw [aget_aset_self]
    simp [hknl]
  have hb2 : ({ s with listeners := s.listeners ++ [k] } : Session).broadcasterSocket.isSome
      = true := by
    simp [hbw]
  have hk2 : k ∈ ({ s with listeners := s.listeners ++ [k] } : Session).listeners := by
    simp
  have hnd2 : ({ s with listeners := s.listeners ++ [k] } : Session).listeners.Nodup := by
    simp only
    refine List.nodup_append.mpr ⟨hnd, List.nodup_singleton k, ?_⟩
    intro a ha2 hb2
    rw [List.mem_singleton] at hb2
    subst hb2
    exact hknl ha2
  have h := broadcasterMessage_binary_socks_mem c hs2 hb2 hk2 hnd2 hmain rfl
  simpa using h

/-- Witness for C4 amended: applies the amended ordering theorem to stLive
with listener socket 1 and follow-up chunk [9]. -/
theorem c4_bootstrap_order_witness :
    aget ((connectListener "s1" "t" 1 stLive).1).socks 1
      = some ⟨[Msg.ok "s1", Msg.initSegmentAnn 2, Msg.binaryData [7, 8],
          Msg.broadcastStarted], true⟩
    ∧ aget (step (Event.bMessage "s1" (Frame.binary [9]))
          ((connectListener "s1" "t" 1 stLive).1)).socks 1
      = some ⟨[Msg.ok "s1", Msg.initSegmentAnn 2, Msg.binaryData [7, 8],
          Msg.broadcastStarted, Msg.binaryData [9]], true⟩ := by
  have h := c4_bootstrap_order stLive "s1" "t" 1 0 sessionLive [7, 8] rfl (by decide)
    rfl (by decide) rfl rfl (by decide) (by decide) (by decide)
  exact ⟨h.1, h.2 [9]⟩

/-- C2 amended: the fan-out loop keeps no bounded per-listener queue and
applies no overflow policy: each binary chunk is appended unconditionally to
every open attached listener socket, so after n chunks a listener that never
drains has exactly n chunks pending in arrival order, none dropped, and it
is neither disconnected nor removed from the listener set. -/
theorem c2_unbounded_fanout (sid : String) (c : Bytes) (k : Nat) (n : Nat) :
    ∀ (st : SrvState) (s : Session) (sk : Sock),
      aget st.sessions sid = some s → s.broadcasterSocket.isSome = true →
      k ∈ s.listeners → s.listeners.Nodup →
      aget st.socks k = some sk → sk.readyOpen = true →
      aget (run (List.replicate n (Event.bMessage sid (Frame.binary c))) st).socks k
        = some ⟨sk.outbox ++ List.replicate n (Msg.binaryData c), true⟩
      ∧ ∃ s2, aget (run (List.replicate n
            (Event.bMessage sid (Frame.binary c))) st).sessions sid = some s2
          ∧ s2.listeners = s.listeners := by
  induction n with
  | zero =>
      intro st s sk hs hb hk hnd hsk ho
      obtain ⟨ob, ro⟩ := sk
      simp only at ho
      subst ho
      exact ⟨by simpa [run] using hsk, ⟨s, hs, rfl⟩⟩
  | succ n ih =>
      intro st s sk hs hb hk hnd hsk ho
      have hstep_socks := broadcasterMessage_binary_socks_mem c hs hb hk hnd hsk ho
      rcases broadcasterMessage_binary_session_shape c hs hb with ⟨s2, hget, hl, hbb⟩
      have ih2 := ih (step (Event.bMessage sid (Frame.binary c)) st) s2
        ⟨sk.outbox ++ [Msg.binaryData c], true⟩ hget (by rw [hbb]; exact hb)
        (by rw [hl]; exact hk) (by rw [hl]; exact hnd) hstep_socks rfl
      have hrun : run (List.replicate (n + 1) (Event.bMessage sid (Frame.binary c))) st
          = run (List.replicate n (Event.bMessage sid (Frame.binary c)))
              (step (Event.bMessage sid (Frame.binary c)) st) := by
        rw [List.replicate_succ]
        rfl
      rw [hrun]
      refine ⟨?_, ?_⟩
      · rw [ih2.1]
        simp [List.replicate_succ, List.append_assoc]
      · rcases ih2.2 with ⟨s3, hget3, hl3⟩
        exact ⟨s3, hget3, hl3.trans hl⟩

/-- Witness for C2 amended: two chunks to stWithListener leave both chunks
pending on listener socket 1, which stays attached. -/
theorem c2_unbounded_fanout_witness :
    aget (run (List.replicate 2 (Event.bMessage "s1" (Frame.binary [5])))
        stWithListener).socks 1
      = some ⟨List.replicate 2 (Msg.binaryData [5]), true⟩
    ∧ ∃ s2, aget (run (List.replicate 2 (Event.bMessage "s1" (Frame.binary [5])))
        stWithListener).sessions "s1" = some s2
        ∧ s2.listeners = sessionWithListener.listeners := by
  have h := c2_unbounded_fanout "s1" [5] 1 2 stWithListener sessionWithListener
    ⟨[], true⟩ rfl rfl (by decide) (by decide) rfl rfl
  exact ⟨h.1, h.2⟩

/-- C3: the round-trip law: create, attach the broadcaster, stream chunks
c1..cn, stop: the recording file byte-equals c1++...++cn and the session is
removed; moreover no event addressed to a session with a different recording
path (and no create opening a different path) ever changes this file, so no
bytes from any other session are interleaved. -/
theorem c3_recording_concat :
    (∀ (id tok : String) (now b : Nat) (chunks : List Bytes) (st0 : SrvState),
      aget st0.sessions id = none →
      aget st0.files (mkFilePath id now) = none →
      aget (run (c3trace id tok now b chunks) st0).files (mkFilePath id now)
          = some chunks.flatten
      ∧ aget (run (c3trace id tok now b chunks) st0).sessions id = none)
    ∧ (∀ (e : Event) (st : SrvState) (p : String),
        (∀ s, aget st.sessions (eventSid e) = some s → s.filePath ≠ p) →
        (∀ id2 tok2 now2, e = Event.create id2 tok2 now2 → mkFilePath id2 now2 ≠ p) →
        aget (step e st).files p = aget st.files p) := by
  constructor
  · intro id tok now b chunks st0 hs0 hf0
    have h1sess : aget (createSession id tok now st0).sessions id
        = some (newSession id tok now) := by
      simp [createSession, aget_aset_self]
    have h1files : aget (createSession id tok now st0).files (mkFilePath id now)
        = some [] := by
      simp [createSession, aget_aset_self, hf0]
    have h2sess : aget ((connectBroadcaster id b (createSession id tok now st0)).1).sessions id
        = some ({ newSession id tok now with broadcasterSocket := some b }) := by
      simp [connectBroadcaster, h1sess, newSession, broadcastToListeners, aget_aset_self]
    have h2files : ((connectBroadcaster id b (createSession id tok now st0)).1).files
        = (createSession id tok now st0).files := connectBroadcaster_files _ _ _
    have hfile2 : aget ((connectBroadcaster id b (createSession id tok now st0)).1).files
        (({ newSession id tok now with broadcasterSocket := some b } : Session).filePath)
        = some [] := by
      rw [h2files]
      exact h1files
    rcases run_binaries_file id chunks
        ((connectBroadcaster id b (createSession id tok now st0)).1)
        ({ newSession id tok now with broadcasterSocket := some b }) [] h2sess rfl rfl
        hfile2 with ⟨s2, hget2, hfp2, hfile3⟩
    have htr : run (c3trace id tok now b chunks) st0
        = stopApi id (run (chunks.map (fun c => Event.bMessage id (Frame.binary c)))
            ((connectBroadcaster id b (createSession id tok now st0)).1)) := by
      show run ((Event.create id tok now :: Event.upBroadcaster id b ::
        chunks.map (fun c => Event.bMessage id (Frame.binary c))) ++ [Event.stop id]) st0 = _
      rw [run_append]
      rfl
    constructor
    · rw [htr, stopApi_files]
      have : mkFilePath id now
          = ({ newSession id tok now with broadcasterSocket := some b } : Session).filePath :=
        rfl
      rw [this]
      exact hfile3.trans (by simp)
    · rw [htr, stopApi_eq_teardown]
      exact teardownSession_sessions_self _ _ _
  · intro e st p h1 h2
    cases e with
    | create id2 tok2 now2 =>
        have hne := h2 id2 tok2 now2 rfl
        simp only [step, createSession]
        exact aget_aset_ne _ _ (Ne.symm hne)
    | upBroadcaster sid k =>
        show aget ((connectBroadcaster sid k st).1).files p = aget st.files p
        rw [connectBroadcaster_files]
    | upListener sid tok k =>
        show aget ((connectListener sid tok k st).1).files p = aget st.files p
        rw [connectListener_files]
    | bMessage sid f =>
        cases hs0 : aget st.sessions sid with
        | none => simp [step, broadcasterMessage, hs0]
        | some s =>
            have hfp : s.filePath ≠ p := h1 s hs0
            by_cases hb : s.broadcasterSocket.isSome
            · cases f with
              | binary d =>
                  by_cases hf : s.fileEnded
                  · by_cases hr : s.initSegmentReceived <;>
                      simp [step, broadcasterMessage, hs0, hb, hr, hf]
                  · by_cases hr : s.initSegmentReceived <;>
                      simp [step, broadcasterMessage, hs0, hb, hr, hf,
                        aget_aset_ne st.files _ (Ne.symm hfp)]
              | textMeta m => simp [step, broadcasterMessage, hs0, hb]
              | textStop =>
                  simp only [step]
                  rcases broadcasterMessage_stop_cases sid st with hcs | hcs
                  · rw [hcs]
                  · rw [hcs, teardownSession_files]
              | textOther => simp [step, broadcasterMessage, hs0, hb]
            · cases f <;> simp [step, broadcasterMessage, hs0, hb]
    | bClose sid =>
        show aget (teardownSession sid "broadcaster-disconnected" st).files p
          = aget st.files p
        rw [teardownSession_files]
    | bError sid =>
        show aget (teardownSession sid "error" st).files p = aget st.files p
        rw [teardownSession_files]
    | lClose sid k =>
        show aget (listenerClosed sid k st).files p = aget st.files p
        rw [listenerClosed_files]
    | stop sid =>
        show aget (stopApi sid st).files p = aget st.files p
        rw [stopApi_files]
    | expire sid =>
        show aget (expireSession sid st).files p = aget st.files p
        rw [expireSession_files]

/-- Witness for C3: the trace with chunks [1] and [2, 3] leaves the file
holding [1, 2, 3] and the session removed. -/
theorem c3_recording_concat_witness :
    aget (run (c3trace "aabbccdd" "tok" 0 0 [[1], [2, 3]]) ⟨[], [], []⟩).files
        (mkFilePath "aabbccdd" 0) = some [1, 2, 3]
    ∧ aget (run (c3trace "aabbccdd" "tok" 0 0 [[1], [2, 3]]) ⟨[], [], []⟩).sessions
        "aabbccdd" = none := by
  have h := c3_recording_concat.1 "aabbccdd" "tok" 0 0 [[1], [2, 3]] ⟨[], [], []⟩ rfl rfl
  exact ⟨h.1, h.2⟩

/-- Witness for C10: in stMixed, a stop frame equals the teardown call, and a
meta frame reaches the open listener socket 1. -/
theorem c10_text_frames_witness :
    step (Event.bMessage "s1" Frame.textStop) stMixed
        = teardownSession "s1" "stopped-by-broadcaster" stMixed
    ∧ aget (step (Event.bMessage "s1" (Frame.textMeta "metadata")) stMixed).socks 1
        = some ⟨[Msg.metaMsg "metadata"], true⟩
    ∧ aget (step (Event.bMessage "s1" (Frame.textMeta "metadata")) stMixed).socks 2
        = some ⟨[], false⟩ := by
  have h := c10_text_frames stMixed "s1" sessionMixed "metadata" 1 2
    ⟨[], true⟩ ⟨[], false⟩ rfl rfl (by decide) (by decide) rfl rfl rfl rfl
  exact ⟨h.1, h.2.2.2.1, h.2.2.2.2.1⟩

end AudioBroadcaster
